import Mathlib

/-!
Verification development for the ShieldEye SurfaceScan scan pipeline.

This file gives a shallow embedding, in Lean 4, of the parts of the
TypeScript sources that the specification's claims are about:

* `RiskCalculator` from `shared/src/utils.ts` (library / global risk scores);
* `validateTargetUrl` and its `isPrivateIp` helper from
  `api/src/routes/analytics.ts` (the `security/url-validator` module);
* `createScan` from `api/src/routes/scans.ts` (SSRF rejection and the
  per-URL cooldown);
* `getScanStatus` from `api/src/routes/scans.ts` together with
  `getScanJobStatus` from `api/src/queue.ts` (queue/DB status overlay);
* `updateScanStatus` from `api/src/database.ts` and the analysis worker's
  `processAnalysisTask` from `analyzer/src/worker.ts` (status lifecycle);
* the vulnerability cache helpers from `api/src/database.ts`;
* `minimalAnalyzeAndPersist` from `api/src/minimal/analyzer.ts`
  (idempotency short-circuit, Set-Cookie findings, global risk commit).

Numbers that the source manipulates as IEEE-754 doubles are modelled as
rationals (`ℚ`); every value that actually occurs in the modelled
computations (cvss scores with one decimal, integer confidences and
counts, division by 100 and 1000, multiplication by 1.5) is represented
exactly by both doubles and rationals, so the translation is faithful on
the inputs the claims quantify over.  External effects (DNS, the SQL
store, the Bull queue, HTTP fetches) are modelled as explicit inputs or
explicit state threaded through the functions.
-/

/-! ## Shared risk calculator (`shared/src/utils.ts`, `RiskCalculator`) -/

/-- A vulnerability record as consumed by
`RiskCalculator.calculateLibraryRisk`: an optional numeric `cvssScore`
and a `severity` string (the analyzer passes `'CRITICAL' | 'HIGH' |
'MEDIUM' | 'LOW'`). -/
structure RCVuln where
  cvssScore : Option ℚ
  severity : String
deriving Repr, DecidableEq

/-- JavaScript `v.cvssScore || 0` — "or" with the numeric default: the
score when present (a present score of `0` is falsy in JS, but `0 || 0`
is still `0`, so `Option.getD` is exact). -/
def cvssOrZero (v : RCVuln) : ℚ := v.cvssScore.getD 0

/-- Predicate `v.severity === 'CRITICAL' || (v.cvssScore && v.cvssScore >= 9.0)` —
the predicate counted by `criticalCount` in `calculateLibraryRisk`.
A present score of `0` is falsy in JS, hence the `s ≠ 0` conjunct. -/
def isCriticalVuln (v : RCVuln) : Bool :=
  v.severity = "CRITICAL" ||
    (match v.cvssScore with
     | some s => decide (s ≠ 0) && decide ((9 : ℚ) ≤ s)
     | none => false)

/-- JavaScript `Math.max(...)` over a non-empty list (the `[]` case is unreachable:
`calculateLibraryRisk` and `calculateGlobalRisk` return early on empty
input; `0` is a dummy). -/
def listMax : List ℚ → ℚ
  | [] => 0
  | [x] => x
  | x :: y :: xs => max x (listMax (y :: xs))

/-- JavaScript `Math.min(100, Math.max(0, x))` — the clamp applied by both risk
calculators. -/
def clamp100 (x : ℚ) : ℚ := min 100 (max 0 x)

/-- Function `RiskCalculator.calculateLibraryRisk(vulnerabilities, confidence,
hasPublicExploit)` from `shared/src/utils.ts` lines 5–31: `0` for an
empty list; otherwise base = max cvss × 10, scaled by `confidence/100`,
plus `15` per critical vulnerability, times `1.5` when
`hasPublicExploit`, clamped to `[0,100]`. -/
def calculateLibraryRisk (vulnerabilities : List RCVuln) (confidence : ℚ)
    (hasPublicExploit : Bool) : ℚ :=
  if vulnerabilities = [] then 0
  else
    let maxCvss := listMax (vulnerabilities.map cvssOrZero)
    let criticalCount : ℕ := vulnerabilities.countP (fun v => isCriticalVuln v)
    let base1 := maxCvss * 10 * (confidence / 100)
    let base2 := base1 + (criticalCount : ℚ) * 15
    let base3 := if hasPublicExploit then base2 * (3 / 2) else base2
    clamp100 base3

/-- Function `RiskCalculator.calculateGlobalRisk(libraryRisks, criticalFindings)`
from `shared/src/utils.ts` lines 33–47: `0` for an empty list; otherwise
`0.4·max + 0.3·avg + 5·(count of risks ≥ 70) + 10·criticalFindings`,
clamped to `[0,100]`. -/
def calculateGlobalRisk (libraryRisks : List ℚ) (criticalFindings : ℕ) : ℚ :=
  if libraryRisks = [] then 0
  else
    let maxRisk := listMax libraryRisks
    let avgRisk := libraryRisks.sum / (libraryRisks.length : ℚ)
    let highRiskCount : ℕ := libraryRisks.countP (fun r => decide ((70 : ℚ) ≤ r))
    clamp100 (maxRisk * (2 / 5) + avgRisk * (3 / 10) +
      (highRiskCount : ℚ) * 5 + (criticalFindings : ℚ) * 10)

/-- JavaScript `Math.round`: half-up rounding (towards `+∞` on ties). -/
def jsRound (q : ℚ) : ℤ := ⌊q + 1 / 2⌋

/-- The library-risk formula exactly as the specification words it
(§4.8): "base = max(cvssScore) × 10; scale by `confidence/100`; add
`15 × criticalCount`; multiply by 1.5 if `hasPublicExploit`; clamp
[0,100]".  Written independently of `calculateLibraryRisk` (maximum via
`List.foldl`, count via `List.filter`, clamp spelled the other way
round) so the equality proved about the two is a genuine comparison of
the source against the specification. -/
def specLibraryRiskFormula (vulnerabilities : List RCVuln) (confidence : ℚ)
    (hasPublicExploit : Bool) : ℚ :=
  match vulnerabilities with
  | [] => 0
  | v :: rest =>
    let maxCvss := rest.foldl (fun acc w => max acc (cvssOrZero w)) (cvssOrZero v)
    let criticalCount := ((v :: rest).filter (fun w => isCriticalVuln w)).length
    let scaled := maxCvss * 10 * confidence / 100 + 15 * (criticalCount : ℚ)
    let boosted := if hasPublicExploit then scaled * 1.5 else scaled
    max 0 (min 100 boosted)

/-! ## Scan status (`ScanStatus` enum from `shared/src/types`) -/

/-- The scan lifecycle statuses stored in the `scans.status` column. -/
inductive ScanSt
  | pending
  | running
  | completed
  | failed
deriving Repr, DecidableEq

/-- Severities (`RiskLevel` enum). -/
inductive Severity
  | low
  | moderate
  | high
  | critical
deriving Repr, DecidableEq

/-- Finding types (`FindingType` values that the modelled code paths
produce). -/
inductive FType
  | EVAL_USAGE
  | HARDCODED_TOKEN
  | DYNAMIC_IMPORT
  | WEBASSEMBLY
  | DOM_XSS_SINK
  | REMOTE_CODE
  | CVE
  | FORM_SECURITY
  | INLINE_EVENT_HANDLER
  | IFRAME_SECURITY
  | SECURITY_HEADER
  | SECURITY_COOKIE
  | SCRIPT_INTEGRITY
  | INFO
  | ERROR
deriving Repr, DecidableEq

/-- A finding as relevant to the claims: its type and severity (titles,
descriptions and evidence strings do not influence any claim). -/
structure MFinding where
  ftype : FType
  severity : Severity
deriving Repr, DecidableEq

/-! ## SSRF defense (`api/src/security/url-validator.ts`) -/

/-- A resolved address as returned by `dns.promises.lookup`.  An IPv4
address is its four octets; an IPv6 address is its eight 16-bit groups.
`isPrivateIp` receives the address as its canonical lowercase string;
the structured form carries the numeric fields that string serializes
(see `isPrivateIp` for the correspondence). -/
inductive IpAddr
  | v4 (o1 o2 o3 o4 : ℕ)
  | v6 (g0 g1 g2 g3 g4 g5 g6 g7 : ℕ)
deriving Repr, DecidableEq

/-- Boolean test that `pre` is an initial segment of `cs` — the
character-level meaning of JavaScript `s.startsWith(pre)`. -/
def charsStartWith : List Char → List Char → Bool
  | [], _ => true
  | _ :: _, [] => false
  | p :: ps, c :: cs => p = c && charsStartWith ps cs

/-- The lowercase hexadecimal digits of one 16-bit group, without
leading zeros (`Nat.toDigits 16` renders exactly the digits `inet_ntop`
prints for a group). -/
def groupHex (g : ℕ) : List Char := Nat.toDigits 16 g

/-- Helper `isPrivateIp` from `api/src/routes/analytics.ts` lines
179–201.  For IPv4 the code splits on `.` and compares octets; the
structured form carries the octets directly.  For IPv6 the code tests
the canonical lowercase string `lower`:

* `lower === '::1'` holds exactly of the loopback address (all groups
  0, last 1), since `::1` is the canonical serialization of loopback
  and of nothing else;
* `lower.startsWith('fc')`, `startsWith('fd')` and `startsWith('fe80')`
  are tests on the string's head.  When the first group is nonzero the
  canonical serialization begins with that group's minimal hex digits
  followed by `:` (or `::`); none of the tested patterns contains `:`,
  so the test is equivalent to testing the pattern against the first
  group's digit list `groupHex g0`.  When the first group is zero the
  serialization begins with `0` or a compressed `::`, and
  `groupHex 0 = ['0']` likewise matches none of the patterns.  Note the
  string test is *not* the CIDR range fc00::/7: it also matches heads
  such as `fc` (group `0x00fc`) or `fc0`, and `startsWith('fe80')`
  matches only the single head `fe80`, not all of fe80::/10. -/
def isPrivateIp : IpAddr → Bool
  | .v4 o1 o2 _ _ =>
    o1 = 10 || o1 = 127 || (o1 = 169 && o2 = 254) || (o1 = 192 && o2 = 168) ||
      (o1 = 172 && 16 ≤ o2 && o2 ≤ 31)
  | .v6 g0 g1 g2 g3 g4 g5 g6 g7 =>
    (g0 = 0 && g1 = 0 && g2 = 0 && g3 = 0 && g4 = 0 && g5 = 0 && g6 = 0 && g7 = 1) ||
      (charsStartWith ['f', 'c'] (groupHex g0) || charsStartWith ['f', 'd'] (groupHex g0)) ||
      charsStartWith ['f', 'e', '8', '0'] (groupHex g0)

/-- The private ranges exactly as the specification lists them (§4.1):
IPv4 10/8, 127/8, 169.254/16, 172.16/12, 192.168/16; IPv6 ::1,
fc00::/7, fe80::/10.  Written from the spec's words, to be compared
with the source's `isPrivateIp`. -/
def inSpecPrivateRange : IpAddr → Bool
  | .v4 o1 o2 _ _ =>
    o1 = 10 || o1 = 127 || (o1 = 169 && o2 = 254) || (o1 = 172 && 16 ≤ o2 && o2 ≤ 31) ||
      (o1 = 192 && o2 = 168)
  | .v6 g0 g1 g2 g3 g4 g5 g6 g7 =>
    (g0 = 0 && g1 = 0 && g2 = 0 && g3 = 0 && g4 = 0 && g5 = 0 && g6 = 0 && g7 = 1) ||
      (0xfc00 ≤ g0 && g0 ≤ 0xfdff) ||
      (0xfe80 ≤ g0 && g0 ≤ 0xfebf)

/-- Function `validateTargetUrl` from `api/src/routes/analytics.ts` lines
160–221, with the effectful pieces made explicit: the URL has already
been parsed (`protocol` and `hostname` are the lowercased parsed
fields; parse failure raises `'Invalid URL'` upstream of everything
modelled here) and the DNS lookup result is an input — `.ok records`
for a successful `dns.promises.lookup(hostname, { all: true })`,
`.error true` for ENOTFOUND/EAI_AGAIN, `.error false` for any other
lookup failure. -/
def validateTargetUrl (protocol hostname : String)
    (dns : Except Bool (List IpAddr)) : Except String Unit :=
  if protocol ≠ "http:" ∧ protocol ≠ "https:" then
    .error "Unsupported URL protocol"
  else if hostname = "localhost" ∨ hostname = "127.0.0.1" ∨ hostname = "::1" then
    .error "Access to local addresses is not allowed"
  else
    match dns with
    | .error notFound =>
      if notFound then .error ("Failed to resolve target host: " ++ hostname)
      else .error "Failed to validate target URL"
    | .ok records =>
      if records.any isPrivateIp then
        .error "Access to private or internal network addresses is not allowed"
      else .ok ()

/-! ## Scan creation (`api/src/routes/scans.ts`, `createScan`) -/

/-- The observable outcome of one `POST /api/scans` request: the HTTP
status, the `retryAfterSeconds` field of a 429 body, and whether a scan
row was created / a queue job enqueued. -/
structure CreateScanOutcome where
  httpStatus : ℕ
  retryAfterSeconds : Option ℤ
  scanCreated : Bool
  jobEnqueued : Bool
deriving Repr, DecidableEq

/-- Handler `createScan` from `api/src/routes/scans.ts` lines 156–253, after
schema validation has succeeded.  `validate` is the result of
`validateTargetUrl` on the request URL; `cooldownSeconds` is the value
of `parseInt(process.env.SCAN_URL_COOLDOWN_SECONDS || '30', 10) || 30`;
`latestCreatedAtMs` is `createdAt` of the most recent scan for the same
URL (`getRecentScansByUrl(url, 1)`), if any; `nowMs` is `Date.now()`.
A validation error answers 400 before any row or job is created; a
cooldown hit answers 429 with `retryAfterSeconds =
Math.ceil(cooldownSeconds - diffSeconds)` before any row or job is
created; otherwise the row is inserted and the job enqueued (201). -/
def createScan (validate : Except String Unit) (cooldownSeconds : ℤ)
    (latestCreatedAtMs : Option ℤ) (nowMs : ℤ) : CreateScanOutcome :=
  match validate with
  | .error _ => ⟨400, none, false, false⟩
  | .ok _ =>
    let cooldownHit : Option ℤ :=
      if 0 < cooldownSeconds then
        match latestCreatedAtMs with
        | some createdAt =>
          let diffSeconds : ℚ := ((nowMs - createdAt : ℤ) : ℚ) / 1000
          if diffSeconds < (cooldownSeconds : ℚ) then
            some ⌈(cooldownSeconds : ℚ) - diffSeconds⌉
          else none
        | none => none
      else none
    match cooldownHit with
    | some retry => ⟨429, some retry, false, false⟩
    | none => ⟨201, none, true, true⟩

/-! ## Status overlay (`api/src/routes/scans.ts`, `getScanStatus`,
with `api/src/queue.ts`, `getScanJobStatus`) -/

/-- Queue job states surfaced by `getScanJobStatus`: the Bull states of
the scan job, or `dead-letter` when the job was found only in the
dead-letter queue. -/
inductive JState
  | waiting
  | delayed
  | active
  | completed
  | failed
  | deadLetter
deriving Repr, DecidableEq

/-- A `getScanJobStatus` result: the job state, the worker result's
`success` field when the job completed (absent when the return value
carries no `success`), and the job progress. -/
structure JobView where
  jstate : JState
  resultSuccess : Option Bool
  progress : ℕ
deriving Repr, DecidableEq

/-- What one `GET /api/scans/:id/status` request returns and writes:
the effective status, the progress, and the status written back to the
DB (if any). -/
structure StatusView where
  status : ScanSt
  progress : ℕ
  wroteBack : Option ScanSt
deriving Repr, DecidableEq

/-- Handler `getScanStatus` from `api/src/routes/scans.ts` lines 281–381 (the
status/progress/write-back logic; the derived `stage` label and
timestamp echoes are not modelled).  The queue is consulted only when
the DB row says `pending` or `running`; the effective status overlays
the queue state; a differing effective status that is running or
terminal is written back through `updateScanStatus`; the progress is
the job's progress, or 100 when no job was found and the effective
status is terminal. -/
def getScanStatus (dbStatus : ScanSt) (queue : Option JobView) : StatusView :=
  let jobStatus := if dbStatus = .pending ∨ dbStatus = .running then queue else none
  let effective : ScanSt :=
    match jobStatus with
    | none => dbStatus
    | some j =>
      match j.jstate with
      | .waiting => .running
      | .delayed => .running
      | .active => .running
      | .completed => if j.resultSuccess = some false then .failed else .completed
      | .failed => .failed
      | .deadLetter => .failed
  let wroteBack : Option ScanSt :=
    if effective ≠ dbStatus ∧
        (effective = .running ∨ effective = .completed ∨ effective = .failed) then
      some effective
    else none
  let progress : ℕ :=
    if jobStatus = none ∧ (effective = .completed ∨ effective = .failed) then 100
    else match jobStatus with
      | some j => j.progress
      | none => 0
  ⟨effective, progress, wroteBack⟩

/-! ## Status write lifecycle
(`api/src/database.ts` `updateScanStatus`, `analyzer/src/worker.ts`
`processAnalysisTask`, `api/src/routes/scans.ts` reconciliation) -/

/-- Queue-side phase of a scan's job, as needed to constrain which
observations the status endpoint can make: `queued` while the job is
waiting/delayed/active, `done ok` once a processing attempt finished
with worker success `ok`. -/
inductive QPhase
  | queued
  | done (ok : Bool)
deriving Repr, DecidableEq

/-- The per-scan system state for the lifecycle model: the scan row's
status (`none` before `createScan` inserts it) and the job phase
(`none` before the job is enqueued). -/
structure C3State where
  db : Option ScanSt
  job : Option QPhase
deriving Repr, DecidableEq

/-- Events that write the scan row's status:
* `create` — `POST /api/scans` inserts the row as `pending` and
  enqueues the job;
* `deliver ok dbOk` — the queue hands the task to the worker once;
  `processAnalysisTask` (worker.ts line 303) unconditionally writes
  `running`, then `completed` (line 538) or `failed` (line 557)
  according to `ok`; `dbOk = false` models the degenerate run in which
  every DB write of the attempt fails (no status writes land) while the
  queue still records the attempt's outcome;
* `reconcile` — `GET /api/scans/:id/status` runs `getScanStatus` and
  performs its conditional write-back.

The queue re-delivers a job after a stall or retry, so a trace may
contain several `deliver` events for the same scan; the worker has no
guard against that (it never reads the current status or the existing
rows before writing `running`). -/
inductive C3Ev
  | create
  | deliver (ok : Bool) (dbOk : Bool)
  | reconcile
deriving Repr, DecidableEq

/-- One event's effect on the per-scan state, together with the list of
status values written to the scan row by that event (in order). -/
def c3Step (s : C3State) (e : C3Ev) : C3State × List ScanSt :=
  match e with
  | .create =>
    match s.db with
    | none => (⟨some .pending, some .queued⟩, [.pending])
    | some _ => (s, [])
  | .deliver ok dbOk =>
    match s.job with
    | none => (s, [])
    | some _ =>
      if dbOk then
        (⟨some (if ok then .completed else .failed), some (.done ok)⟩,
          [.running, if ok then .completed else .failed])
      else (⟨s.db, some (.done ok)⟩, [])
  | .reconcile =>
    match s.db with
    | none => (s, [])
    | some st =>
      if st = .pending ∨ st = .running then
        let eff : ScanSt :=
          match s.job with
          | some .queued => .running
          | some (.done true) => .completed
          | some (.done false) => .failed
          | none => st
        if eff ≠ st then (⟨some eff, s.job⟩, [eff]) else (s, [])
      else (s, [])

/-- The sequence of status values written to the scan row over an event
sequence, starting from state `s`. -/
def c3Run (s : C3State) : List C3Ev → List ScanSt
  | [] => []
  | e :: es =>
    let p := c3Step s e
    p.2 ++ c3Run p.1 es

/-- The initial per-scan state: no row, no job. -/
def c3Init : C3State := ⟨none, none⟩

/-- Rank of a status in the lifecycle order `pending → running →
(completed|failed)`. -/
def statusRank : ScanSt → ℕ
  | .pending => 0
  | .running => 1
  | .completed => 2
  | .failed => 2

/-- Number of `deliver` events in a trace. -/
def countDeliver (evs : List C3Ev) : ℕ :=
  evs.countP (fun e => match e with | .deliver _ _ => true | _ => false)

/-- Rank of a per-scan state: the rank of the stored status (`none`
ranks 0). -/
def stateRank (s : C3State) : ℕ :=
  match s.db with
  | none => 0
  | some st => statusRank st

/-- Reachable state shapes before the job has been processed: either
nothing exists yet, or the row is `pending`/`running` with the job
still queued. -/
def preDeliverInv (s : C3State) : Prop :=
  (s.db = none ∧ s.job = none) ∨
    ((s.db = some .pending ∨ s.db = some .running) ∧ s.job = some .queued)

/-- Reachable state shapes after the job has been processed: the job
phase records the outcome and the row exists. -/
def postDeliverInv (s : C3State) : Prop :=
  (∃ ok, s.job = some (.done ok)) ∧ ∃ st, s.db = some st

/-! ## Vulnerability cache (`api/src/database.ts` lines 683–745) -/

/-- A `vulnerability_cache` row: the cached vulnerability list (each
record modelled by its optional `cvssScore`, the only field any
modelled computation reads), `last_updated` in epoch milliseconds, and
`ttl` in seconds. -/
structure CacheEntry where
  vulnerabilities : List (Option ℚ)
  lastUpdatedMs : ℤ
  ttlSeconds : ℤ
deriving Repr, DecidableEq

/-- Cache key: `(package_name, version)`, with `version IS NOT DISTINCT
FROM $2` comparing `null` keys equal. -/
abbrev CacheKey := String × Option String

/-- The `vulnerability_cache` table, as a list of rows in heap
(insertion) order.  The table declares `UNIQUE(package_name, version)`
(database.ts lines 281–290) with `version` nullable; since Postgres
unique indexes treat NULLs as distinct, the index keeps non-null keys
unique but permits several rows with the same `package_name` and a
`NULL` version. -/
abbrev VulnCache := List (CacheKey × CacheEntry)

/-- First matching row of the `SELECT … WHERE package_name = $1 AND
version IS NOT DISTINCT FROM $2` (no ORDER BY): the caller takes
`rows[0]`, whose identity among several matching rows is unspecified —
the model uses heap (insertion) order, the order a sequential scan
returns. -/
def cacheLookup (cache : VulnCache) (key : CacheKey) : Option CacheEntry :=
  match cache with
  | [] => none
  | (k, e) :: rest => if k = key then some e else cacheLookup rest key

/-- Helper `getVulnerabilityCacheEntry` from `api/src/database.ts`
lines 683–723: take `rows[0]` of the un-ordered SELECT and enforce the
TTL at the helper level — when `Date.now() > lastUpdated + ttl·1000`
the expired row is reported as a miss (`null`); otherwise the row is
returned. -/
def getVulnerabilityCacheEntry (cache : VulnCache) (packageName : String)
    (version : Option String) (nowMs : ℤ) : Option CacheEntry :=
  match cacheLookup cache (packageName, version) with
  | none => none
  | some row =>
    let expiresAtMs := row.lastUpdatedMs + row.ttlSeconds * 1000
    if expiresAtMs < nowMs then none else some row

/-- Helper `upsertVulnerabilityCacheEntry` from `api/src/database.ts`
lines 725–745: `INSERT … ON CONFLICT (package_name, version) DO
UPDATE`, setting `last_updated = NOW()` (the upsert time `nowMs`) and
the given `ttl`.  The conflict target is the `UNIQUE(package_name,
version)` index; for a non-null `version` the conflicting row (at most
one, by the index) is updated in place, but for a `null` version no
conflict can ever arise — the index treats NULLs as distinct — so the
statement degenerates to a plain INSERT that adds a second row for the
same key. -/
def upsertVulnerabilityCacheEntry (cache : VulnCache) (packageName : String)
    (version : Option String) (vulnerabilities : List (Option ℚ))
    (nowMs ttlSeconds : ℤ) : VulnCache :=
  match version with
  | some v =>
    if cache.any (fun kv => kv.1 = (packageName, some v)) then
      cache.map (fun kv =>
        if kv.1 = (packageName, some v) then (kv.1, ⟨vulnerabilities, nowMs, ttlSeconds⟩)
        else kv)
    else cache ++ [((packageName, some v), ⟨vulnerabilities, nowMs, ttlSeconds⟩)]
  | none => cache ++ [((packageName, none), ⟨vulnerabilities, nowMs, ttlSeconds⟩)]

/-! ## Minimal analyzer (`api/src/minimal/analyzer.ts`) -/

/-- The finding types `PatternUtils.detectRiskyPatterns`
(`shared/src/utils.ts` lines 157–215) can emit — exactly these five. -/
inductive PatternType
  | EVAL_USAGE
  | HARDCODED_TOKEN
  | DYNAMIC_IMPORT
  | WEBASSEMBLY
  | DOM_XSS_SINK
deriving Repr, DecidableEq

/-- Injection of the pattern types into the full `FindingType` set. -/
def patternFType : PatternType → FType
  | .EVAL_USAGE => .EVAL_USAGE
  | .HARDCODED_TOKEN => .HARDCODED_TOKEN
  | .DYNAMIC_IMPORT => .DYNAMIC_IMPORT
  | .WEBASSEMBLY => .WEBASSEMBLY
  | .DOM_XSS_SINK => .DOM_XSS_SINK

/-- Mapping `mapFindingTypeToSeverity` from `api/src/minimal/analyzer.ts` lines
114–128. -/
def mapFindingTypeToSeverity : FType → Severity
  | .HARDCODED_TOKEN => .critical
  | .REMOTE_CODE => .critical
  | .EVAL_USAGE => .high
  | .CVE => .high
  | .DYNAMIC_IMPORT => .moderate
  | .WEBASSEMBLY => .moderate
  | _ => .low

/-- One cookie of a (possibly multi-line) `Set-Cookie` header, after
the per-cookie regex tests of `api/src/minimal/analyzer.ts` lines
551–555: `isSensitive` is `/session|auth|token|jwt/.test(lower)` (the
test runs over the whole lowercased cookie string), and the three flag
fields are the `/;\s*secure\b/i`, `/;\s*httponly\b/i`, `/;\s*samesite=/i`
tests.  The upstream `split(/\r?\n/)`, `trim()` and empty-line skip are
abstracted: a `CookieFlags` list stands for the non-empty trimmed
cookie strings in order. -/
structure CookieFlags where
  isSensitive : Bool
  hasSecure : Bool
  hasHttpOnly : Bool
  hasSameSite : Bool
deriving Repr, DecidableEq

/-- The `for (const raw of rawCookies)` loop of
`api/src/minimal/analyzer.ts` lines 547–584, with the two
`reportedSensitiveCookie` / `reportedGenericCookie` flags threaded
explicitly.  Each iteration may emit one finding per the if/else-if
chain, then breaks when both flags are set. -/
def analyzeSetCookieLoop : List CookieFlags → Bool → Bool → List MFinding
  | [], _, _ => []
  | c :: rest, repS, repG =>
    if c.isSensitive && (!c.hasSecure || !c.hasHttpOnly || !c.hasSameSite) && !repS then
      if repG then [⟨.SECURITY_COOKIE, .high⟩]
      else ⟨.SECURITY_COOKIE, .high⟩ :: analyzeSetCookieLoop rest true repG
    else if !c.isSensitive && (!c.hasSecure || !c.hasHttpOnly) && !repG then
      if repS then [⟨.SECURITY_COOKIE, .moderate⟩]
      else ⟨.SECURITY_COOKIE, .moderate⟩ :: analyzeSetCookieLoop rest repS true
    else
      if repS && repG then [] else analyzeSetCookieLoop rest repS repG

/-- The cookie analysis of one `Set-Cookie` header: the loop started
with both reported-flags false. -/
def analyzeSetCookie (cookies : List CookieFlags) : List MFinding :=
  analyzeSetCookieLoop cookies false false

/-- The response-header facts that the header-analysis block of
`minimalAnalyzeAndPersist` (lines 460–707) branches on, each field the
result of the corresponding presence test or regex on the lowercased
header map. -/
structure HeaderView where
  hasCsp : Bool
  cspUnsafe : Bool
  hasHsts : Bool
  hasXfo : Bool
  xfoStrong : Bool
  xctoNosniff : Bool
  setCookie : Option (List CookieFlags)
  hasReferrerPolicy : Bool
  referrerWeak : Bool
  hasPermissionsPolicy : Bool
  coopStrong : Bool
  hasCoep : Bool
  hasCorp : Bool
  acao : Option String
  acacTrue : Bool
deriving Repr, DecidableEq

/-- The HTTP security-header analysis of `minimalAnalyzeAndPersist`
lines 460–707, in source order: CSP, HSTS (https only),
X-Frame-Options, X-Content-Type-Options, Set-Cookie, Referrer-Policy,
Permissions-Policy, COOP/COEP/CORP (https only), CORS. -/
def analyzeHeaders (h : HeaderView) (isHttps : Bool) : List MFinding :=
  (if !h.hasCsp then [⟨.SECURITY_HEADER, .moderate⟩]
   else if h.cspUnsafe then [⟨.SECURITY_HEADER, .high⟩] else []) ++
  (if isHttps && !h.hasHsts then [⟨.SECURITY_HEADER, .high⟩] else []) ++
  (if !h.hasXfo then [⟨.SECURITY_HEADER, .moderate⟩]
   else if !h.xfoStrong then [⟨.SECURITY_HEADER, .moderate⟩] else []) ++
  (if !h.xctoNosniff then [⟨.SECURITY_HEADER, .moderate⟩] else []) ++
  (match h.setCookie with
   | some cookies => analyzeSetCookie cookies
   | none => []) ++
  (if !h.hasReferrerPolicy then [⟨.SECURITY_HEADER, .moderate⟩]
   else if h.referrerWeak then [⟨.SECURITY_HEADER, .moderate⟩] else []) ++
  (if !h.hasPermissionsPolicy then [⟨.SECURITY_HEADER, .low⟩] else []) ++
  (if isHttps && !h.coopStrong then [⟨.SECURITY_HEADER, .low⟩] else []) ++
  (if isHttps && !h.hasCoep then [⟨.SECURITY_HEADER, .low⟩] else []) ++
  (if isHttps && !h.hasCorp then [⟨.SECURITY_HEADER, .low⟩] else []) ++
  (match h.acao with
   | none => []
   | some a =>
     let originValue := a.trim
     if (originValue = "*" ∨ originValue = "*,*") ∧ h.acacTrue then
       [⟨.SECURITY_HEADER, .high⟩]
     else if originValue = "*" then [⟨.SECURITY_HEADER, .moderate⟩]
     else [])

/-- The HTML-surface facts that `analyzeHtmlSurface` (lines 130–364)
computes with its regex loops before emitting findings. -/
structure SurfaceView where
  formCount : ℕ
  getForms : ℕ
  hasPassword : Bool
  hasCsrfToken : Bool
  eventHandlerCount : ℕ
  dangerousHandlerCount : ℕ
  thirdPartyIframeCount : ℕ
  insecureIframeCount : ℕ
  mixedScriptCount : ℕ
  mixedImgCount : ℕ
  mixedLinkCount : ℕ
deriving Repr, DecidableEq

/-- Function `analyzeHtmlSurface` from `api/src/minimal/analyzer.ts` lines
130–364: forms (GET method, password over non-https, missing CSRF
indicator), inline event handlers (plus the dangerous-pattern
escalation), iframes (third-party, insecure), and — on https pages —
the mixed-content finding whose severity is high when a mixed script or
insecure iframe is present. -/
def analyzeHtmlSurface (s : SurfaceView) (isHttps : Bool) : List MFinding :=
  (if 0 < s.getForms then [⟨.FORM_SECURITY, .moderate⟩] else []) ++
  (if s.hasPassword && !isHttps then [⟨.FORM_SECURITY, .high⟩] else []) ++
  (if 0 < s.formCount && !s.hasCsrfToken then [⟨.FORM_SECURITY, .moderate⟩] else []) ++
  (if 0 < s.eventHandlerCount then [⟨.INLINE_EVENT_HANDLER, .moderate⟩] else []) ++
  (if 0 < s.dangerousHandlerCount then [⟨.INLINE_EVENT_HANDLER, .high⟩] else []) ++
  (if 0 < s.thirdPartyIframeCount then [⟨.IFRAME_SECURITY, .moderate⟩] else []) ++
  (if 0 < s.insecureIframeCount then [⟨.IFRAME_SECURITY, .high⟩] else []) ++
  (if isHttps &&
      0 < s.mixedScriptCount + s.mixedImgCount + s.mixedLinkCount + s.insecureIframeCount then
    [⟨.SECURITY_HEADER,
      if 0 < s.mixedScriptCount || 0 < s.insecureIframeCount then .high else .moderate⟩]
   else [])

/-- One external `<script src=…>` occurrence of the scanned page, after
the URL parsing and name/version extraction of lines 712–741:
`isThirdParty` (`u.hostname !== pageHost`), `isInsecure`
(`u.protocol === 'http:'`), `hasIntegrity` (an `integrity` attribute on
the tag), and the extracted library `name` / optional `version`. -/
structure ScriptInfo where
  src : String
  name : String
  version : Option String
  isThirdParty : Bool
  isInsecure : Bool
  hasIntegrity : Bool
deriving Repr, DecidableEq

/-- A `libraries` row as relevant to the claims: name, risk score and
confidence. -/
structure LibRow where
  name : String
  riskScore : ℤ
  confidence : ℚ
deriving Repr, DecidableEq

/-- The severity string the enrichment loop derives from an optional
cvss score (lines 868–874 / 902–908): thresholds 9/7/4, default
`'MEDIUM'` when no numeric score is present. -/
def derivedSeverityString (cvss : Option ℚ) : String :=
  match cvss with
  | none => "MEDIUM"
  | some s =>
    if 9 ≤ s then "CRITICAL" else if 7 ≤ s then "HIGH" else if 4 ≤ s then "MEDIUM" else "LOW"

/-- A risk-calculator input built by the enrichment loop from one
vulnerability record's optional cvss score. -/
def riskInputOf (cvss : Option ℚ) : RCVuln :=
  ⟨cvss, derivedSeverityString cvss⟩

/-- The base risk score assigned to a library when its script is first
seen (lines 787–790): 10, +30 if third-party, +40 if insecure, capped
at 100. -/
def baseLibRisk (s : ScriptInfo) : ℤ :=
  min 100 (10 + (if s.isThirdParty then 30 else 0) + (if s.isInsecure then 40 else 0))

/-- The `libraries` row inserted for one external script (lines
792–813), before vulnerability enrichment. -/
def baseLibOfScript (s : ScriptInfo) : LibRow :=
  ⟨s.name, baseLibRisk s, if s.isThirdParty || s.isInsecure then 70 else 50⟩

/-- The in-memory library after the enrichment loop (lines 856–956).
`vulnFeed name version` is the list of vulnerability records (their
optional cvss scores) available for the library from the cache or the
OSV query; when it is non-empty the loop recomputes the risk as
`Math.round(RiskCalculator.calculateLibraryRisk(riskInputs,
lib.confidence ?? 50, false))`, otherwise the base risk stands.  (The
loop updates only the in-memory object; the inserted row keeps the base
risk.) -/
def enrichedLibOfScript (vulnFeed : String → Option String → List (Option ℚ))
    (s : ScriptInfo) : LibRow :=
  let base := baseLibOfScript s
  match vulnFeed s.name s.version with
  | [] => base
  | v :: vs =>
    { base with
      riskScore :=
        jsRound (calculateLibraryRisk ((v :: vs).map riskInputOf) base.confidence false) }

/-- The per-scan slice of the relational store that
`minimalAnalyzeAndPersist` reads and writes: the scan's `libraries`
and `findings` rows, the number of its `scripts` rows, and the scan
row's `global_risk_score`. -/
structure MinDbState where
  libraries : List LibRow
  findings : List MFinding
  scriptRows : ℕ
  globalRiskScore : ℤ
deriving Repr, DecidableEq

/-- The scan row fields `minimalAnalyzeAndPersist` consults: its status
and whether the page URL parses with an `https:` protocol
(`pageProtocol`). -/
structure MinScan where
  status : ScanSt
  pageIsHttps : Bool
deriving Repr, DecidableEq

/-- The fetched page, after the regex extractions that the analyzer
performs on the HTML and response headers: the surface facts, the
header facts, the `FindingType`s produced by
`PatternUtils.detectRiskyPatterns` over the inline scripts (in order),
and the first 20 distinct external script tags. -/
structure FetchedPage where
  surface : SurfaceView
  headers : HeaderView
  inlinePatternTypes : List PatternType
  scripts : List ScriptInfo
deriving Repr, DecidableEq

/-- Function `minimalAnalyzeAndPersist` from `api/src/minimal/analyzer.ts`
lines 366–1020, as a state transformer on the scan's DB slice.

* Lines 367–371: if the scan already has `libraries` or `findings` rows
  and its status is `completed`, short-circuit and return the existing
  rows, touching nothing.
* Lines 373–398: a failed fetch (`fetched = none`) inserts one `ERROR`
  finding (moderate) and returns it with no libraries.
* Otherwise: the pattern findings over inline scripts (each with
  `mapFindingTypeToSeverity`), the HTML-surface findings, the header
  findings (including the Set-Cookie ones), and the per-script SRI
  findings are accumulated (they are returned, not inserted); one
  `scripts` row and one `libraries` row are inserted per external
  script; the enrichment loop recomputes in-memory risk scores; the
  summary `INFO` finding, the third-party `INFO` finding (when
  third-party scripts were seen) and the insecure-HTTP `INFO` finding
  (when insecure scripts were seen) are inserted; the scan's
  `global_risk_score` is set to
  `Math.round(calculateGlobalRisk(libraryRisks, criticalFindings))`
  when at least one library exists and to 0 otherwise. -/
def minimalAnalyzeAndPersist (db : MinDbState) (scan : MinScan)
    (fetched : Option FetchedPage)
    (vulnFeed : String → Option String → List (Option ℚ)) :
    MinDbState × (List LibRow × List MFinding) :=
  if (0 < db.libraries.length ∨ 0 < db.findings.length) ∧ scan.status = .completed then
    (db, (db.libraries, db.findings))
  else
    match fetched with
    | none =>
      ({ db with findings := db.findings ++ [⟨.ERROR, .moderate⟩] },
        ([], [⟨.ERROR, .moderate⟩]))
    | some page =>
      let patternFindings : List MFinding :=
        page.inlinePatternTypes.map
          (fun t => ⟨patternFType t, mapFindingTypeToSeverity (patternFType t)⟩)
      let surfaceFindings := analyzeHtmlSurface page.surface scan.pageIsHttps
      let headerFindings := analyzeHeaders page.headers scan.pageIsHttps
      let sriFindings : List MFinding :=
        page.scripts.filterMap (fun s =>
          if s.isThirdParty && !s.isInsecure && !s.hasIntegrity then
            some ⟨.SCRIPT_INTEGRITY, .moderate⟩
          else none)
      let insertedLibs := page.scripts.map baseLibOfScript
      let libs := page.scripts.map (enrichedLibOfScript vulnFeed)
      let thirdPartyCount := page.scripts.countP (fun s => s.isThirdParty)
      let insecureCount := page.scripts.countP (fun s => s.isInsecure)
      let summaryFinding : MFinding := ⟨.INFO, .low⟩
      let thirdPartyFindings : List MFinding :=
        if 0 < thirdPartyCount then [⟨.INFO, .moderate⟩] else []
      let insecureFindings : List MFinding :=
        if 0 < insecureCount then [⟨.INFO, .high⟩] else []
      let findings :=
        patternFindings ++ surfaceFindings ++ headerFindings ++ sriFindings ++
          [summaryFinding] ++ thirdPartyFindings ++ insecureFindings
      let libraryRisks := libs.map (fun l => (l.riskScore : ℚ))
      let criticalFindings := findings.countP (fun f => f.severity = .critical)
      let globalRisk : ℤ :=
        if 0 < libraryRisks.length then
          jsRound (calculateGlobalRisk libraryRisks criticalFindings)
        else 0
      ({ libraries := db.libraries ++ insertedLibs,
         findings :=
           db.findings ++ [summaryFinding] ++ thirdPartyFindings ++ insecureFindings,
         scriptRows := db.scriptRows + page.scripts.length,
         globalRiskScore := globalRisk },
        (libs, findings))

/-! ## Full analysis worker (`analyzer/src/worker.ts`,
`processAnalysisTask`) -/

/-- An analysis task's size, as it determines the rows the worker
inserts: the inline and external script counts of `domAnalysis`, the
number of consolidated library detections, and the number of pattern
findings. -/
structure WorkerTask where
  inlineScripts : ℕ
  externalScripts : ℕ
  detectedLibraries : ℕ
  patternFindings : ℕ
deriving Repr, DecidableEq

/-- The scan's DB slice as the full worker touches it. -/
structure WScanRow where
  status : ScanSt
  scriptRows : ℕ
  libraryRows : ℕ
  findingRows : ℕ
deriving Repr, DecidableEq

/-- Method `processAnalysisTask` from `analyzer/src/worker.ts` lines 291–559,
at the granularity of rows written.  The function never reads the
scan's current status or its existing rows: it unconditionally sets the
status to `running` (line 303), builds one `scripts` row per inline and
per external script, library rows and finding rows (lines 305–461), and
on success commits all of them in one transaction (`INSERT` with fresh
uuids — never upsert) and sets the status to `completed`; on any error
the transaction rolls back and the status is set to `failed`. -/
def processAnalysisTask (row : WScanRow) (task : WorkerTask) (ok : Bool) : WScanRow :=
  let r1 : WScanRow := { row with status := .running }
  if ok then
    { status := .completed,
      scriptRows := r1.scriptRows + task.inlineScripts + task.externalScripts,
      libraryRows := r1.libraryRows + task.detectedLibraries,
      findingRows := r1.findingRows + task.patternFindings }
  else { r1 with status := .failed }

/-! Basic facts about `listMax` used by the risk theorems. -/

theorem listMax_append_singleton (xs : List ℚ) (v : ℚ) (h : xs ≠ []) :
    listMax (xs ++ [v]) = max (listMax xs) v := by
  induction xs with
  | nil => exact absurd rfl h
  | cons x xs ih =>
    cases xs with
    | nil => simp [listMax]
    | cons y ys =>
      have h2 : (y :: ys : List ℚ) ≠ [] := by simp
      have hih := ih h2
      simp only [List.cons_append] at hih ⊢
      rw [show listMax (x :: y :: (ys ++ [v])) = max x (listMax (y :: (ys ++ [v]))) from rfl,
        hih, show listMax (x :: y :: ys) = max x (listMax (y :: ys)) from rfl, max_assoc]

theorem clamp100_mono {a b : ℚ} (h : a ≤ b) : clamp100 a ≤ clamp100 b := by
  unfold clamp100
  exact min_le_min le_rfl (max_le_max le_rfl h)

theorem clamp100_nonneg (a : ℚ) : 0 ≤ clamp100 a := by
  unfold clamp100
  simp

theorem clamp100_max_min (x : ℚ) : clamp100 x = max 0 (min 100 x) := by
  unfold clamp100
  rw [max_min_distrib_left]
  norm_num

theorem foldl_max_absorb (ys : List ℚ) : ∀ x y : ℚ,
    max x (ys.foldl max y) = ys.foldl max (max x y) := by
  induction ys with
  | nil => intro x y; rfl
  | cons z zs ih =>
    intro x y
    simp only [List.foldl_cons]
    rw [ih, max_assoc]

theorem listMax_cons_foldl (xs : List ℚ) : ∀ x : ℚ, listMax (x :: xs) = xs.foldl max x := by
  induction xs with
  | nil => intro x; rfl
  | cons y ys ih =>
    intro x
    rw [show listMax (x :: y :: ys) = max x (listMax (y :: ys)) from rfl, ih,
      List.foldl_cons, foldl_max_absorb]

/-- C5: `calculateLibraryRisk(vulns, confidence, hasPublicExploit)`
equals the specification's formula — base `max(cvssScore)·10`, scaled
by `confidence/100`, plus `15` per critical vulnerability, times `1.5`
when `hasPublicExploit`, clamped to `[0,100]` — and on S5's input (one
advisory with cvss 9.8, confidence 80, no public exploit) it yields
`93.4`, which rounds (as the minimal analyzer's
`Math.round(RiskCalculator.calculateLibraryRisk(...))` does) to the
library riskScore 93, within ±1 of 93 before rounding. -/
theorem c5_library_risk_formula :
    (∀ (vs : List RCVuln) (c : ℚ) (e : Bool),
        calculateLibraryRisk vs c e = specLibraryRiskFormula vs c e) ∧
    jsRound (calculateLibraryRisk [⟨some (49 / 5), "CRITICAL"⟩] 80 false) = 93 ∧
    |calculateLibraryRisk [⟨some (49 / 5), "CRITICAL"⟩] 80 false - 93| ≤ 1 := by
  have hval : calculateLibraryRisk [⟨some (49 / 5), "CRITICAL"⟩] 80 false = 467 / 5 := by
    norm_num [calculateLibraryRisk, listMax, cvssOrZero, isCriticalVuln, clamp100,
      List.countP_cons, List.countP_nil]
  refine ⟨?_, ?_, ?_⟩
  · intro vs c e
    cases vs with
    | nil => simp [calculateLibraryRisk, specLibraryRiskFormula]
    | cons v rest =>
      have hmax : listMax ((v :: rest).map cvssOrZero)
          = rest.foldl (fun acc w => max acc (cvssOrZero w)) (cvssOrZero v) := by
        rw [List.map_cons, listMax_cons_foldl, List.foldl_map]
      have hcount : (v :: rest).countP (fun w => isCriticalVuln w)
          = ((v :: rest).filter (fun w => isCriticalVuln w)).length :=
        List.countP_eq_length_filter _ _
      simp only [calculateLibraryRisk, specLibraryRiskFormula, hmax, hcount,
        clamp100_max_min, if_neg (List.cons_ne_nil v rest)]
      cases e
      · simp only [Bool.false_eq_true, if_false]
        congr 1
        congr 1
        ring
      · simp only [if_true]
        congr 1
        congr 1
        ring
  · rw [hval]
    norm_num [jsRound]
  · rw [hval]
    rw [abs_le]
    constructor <;> norm_num

/-- C6: appending any vulnerability to a library's vulnerability list
(at any library confidence in `[0,100]`, in fact for any nonnegative
confidence, with `hasPublicExploit` fixed) never decreases
`calculateLibraryRisk`; and for a fixed list of library risks,
increasing the critical-findings count never decreases
`calculateGlobalRisk`. -/
theorem c6_risk_monotonicity :
    (∀ (vs : List RCVuln) (v : RCVuln) (c : ℚ) (e : Bool), 0 ≤ c →
        calculateLibraryRisk vs c e ≤ calculateLibraryRisk (vs ++ [v]) c e) ∧
    (∀ (rs : List ℚ) (cf cf' : ℕ), cf ≤ cf' →
        calculateGlobalRisk rs cf ≤ calculateGlobalRisk rs cf') := by
  constructor
  · intro vs v c e hc
    cases vs with
    | nil =>
      rw [show calculateLibraryRisk [] c e = 0 by simp [calculateLibraryRisk]]
      simpa using clamp100_nonneg _
    | cons w ws =>
      have hne : (w :: ws : List RCVuln) ≠ [] := List.cons_ne_nil _ _
      have hne2 : ((w :: ws) ++ [v] : List RCVuln) ≠ [] := by simp
      have hmapne : ((w :: ws).map cvssOrZero) ≠ [] := by simp
      have hm : listMax ((w :: ws).map cvssOrZero)
          ≤ listMax (((w :: ws) ++ [v]).map cvssOrZero) := by
        rw [List.map_append, List.map_singleton, listMax_append_singleton _ _ hmapne]
        exact le_max_left _ _
      have hk : ((w :: ws).countP (fun u => isCriticalVuln u) : ℚ)
          ≤ (((w :: ws) ++ [v]).countP (fun u => isCriticalVuln u) : ℚ) := by
        rw [List.countP_append]
        exact_mod_cast Nat.le_add_right _ _
      simp only [calculateLibraryRisk, if_neg hne, if_neg hne2]
      apply clamp100_mono
      have hscale : (0 : ℚ) ≤ c / 100 := by positivity
      have h1 : listMax ((w :: ws).map cvssOrZero) * 10 * (c / 100)
          ≤ listMax (((w :: ws) ++ [v]).map cvssOrZero) * 10 * (c / 100) := by
        apply mul_le_mul_of_nonneg_right _ hscale
        linarith
      simp only [List.map_cons, List.map_append, List.map_singleton,
        List.cons_append] at h1 hk ⊢
      cases e
      · simp only [Bool.false_eq_true, if_false]
        linarith
      · simp only [if_true]
        nlinarith
  · intro rs cf cf' h
    cases rs with
    | nil => simp [calculateGlobalRisk]
    | cons r rest =>
      have hne : (r :: rest : List ℚ) ≠ [] := List.cons_ne_nil _ _
      simp only [calculateGlobalRisk, if_neg hne]
      apply clamp100_mono
      have : ((cf : ℚ)) ≤ (cf' : ℚ) := by exact_mod_cast h
      nlinarith

/-- C6 witness: both monotonicity statements applied at concrete
inputs. -/
theorem c6_risk_monotonicity_witness :
    calculateLibraryRisk [⟨some 5, "HIGH"⟩] 80 false
      ≤ calculateLibraryRisk ([⟨some 5, "HIGH"⟩] ++ [⟨some (49 / 5), "CRITICAL"⟩]) 80 false ∧
    calculateGlobalRisk [40] 0 ≤ calculateGlobalRisk [40] 2 :=
  ⟨c6_risk_monotonicity.1 [⟨some 5, "HIGH"⟩] ⟨some (49 / 5), "CRITICAL"⟩ 80 false (by norm_num),
    c6_risk_monotonicity.2 [40] 0 2 (by norm_num)⟩

/-- C1 (code-bug evaluation): the code's string tests do not implement
the specified ranges.  Under-blocking, the slip the claim trips over:
`fe81::1` is link-local per the spec's fe80::/10 (and per the code's
own comment "link-local fe80::/10"), yet `startsWith('fe80')` misses
it, so a scan-creation request whose hostname resolves only to
`fe81::1` passes `validateTargetUrl` and is accepted with 201 and a
queue job instead of being rejected with 400.  Over-blocking, the dual
infidelity of the same string tests: `fc::1` (first group `0x00fc`,
outside fc00::/7 and every other listed range) serializes as `fc::1`
and `startsWith('fc')` flags it, so `validateTargetUrl` rejects it
although the spec's ranges do not contain it. -/
theorem c1_fe80_range_gap :
    inSpecPrivateRange (.v6 0xfe81 0 0 0 0 0 0 1) = true ∧
    isPrivateIp (.v6 0xfe81 0 0 0 0 0 0 1) = false ∧
    validateTargetUrl "https:" "internal.example"
        (.ok [.v6 0xfe81 0 0 0 0 0 0 1]) = .ok () ∧
    createScan (validateTargetUrl "https:" "internal.example"
        (.ok [.v6 0xfe81 0 0 0 0 0 0 1])) 30 none 0 = ⟨201, none, true, true⟩ ∧
    isPrivateIp (.v6 0xfc 0 0 0 0 0 0 1) = true ∧
    inSpecPrivateRange (.v6 0xfc 0 0 0 0 0 0 1) = false ∧
    validateTargetUrl "https:" "other.example"
        (.ok [.v6 0xfc 0 0 0 0 0 0 1])
      = .error "Access to private or internal network addresses is not allowed" := by
  refine ⟨by decide, by decide, by rfl, by decide, by decide, by decide, by rfl⟩

/-- C4 counterexample: with the scan row already `completed` while a
queue job is in state `waiting` (reachable: the analysis worker commits
and sets `completed` while the render job is still live, or the job is
re-queued after a stall), `GET /status` returns `completed` — not
`running` as the claim's unconditional overlay mapping requires —
because the code consults the queue only when the DB status is
`pending` or `running`. -/
theorem c4_counterexample :
    (getScanStatus .completed (some ⟨.waiting, none, 0⟩)).status = .completed ∧
    (getScanStatus .completed (some ⟨.waiting, none, 0⟩)).status ≠ .running := by
  decide

/-- C4 (amended): the queue is consulted only when the DB status is
`pending` or `running`; in that case the overlay maps queue state
`waiting|delayed|active` to `running`, `completed` with worker
`success=false` to `failed`, `completed` otherwise to `completed`, and
`failed|dead-letter` to `failed`, and the returned progress is the
job's progress; when the DB status is already terminal the queue is
ignored, the DB status is returned and progress is 100; whenever the
effective status differs from the DB status it is written back (and it
is then necessarily running or terminal); with no job found and a
non-terminal DB status the DB status is returned with progress 0 and no
write-back. -/
theorem c4_status_overlay (db : ScanSt) (q : Option JobView) :
    ((db = .completed ∨ db = .failed) → getScanStatus db q = ⟨db, 100, none⟩) ∧
    ((db = .pending ∨ db = .running) →
      (∀ j : JobView, q = some j →
        ((j.jstate = .waiting ∨ j.jstate = .delayed ∨ j.jstate = .active) →
          (getScanStatus db q).status = .running) ∧
        (j.jstate = .completed →
          (getScanStatus db q).status =
            (if j.resultSuccess = some false then .failed else .completed)) ∧
        ((j.jstate = .failed ∨ j.jstate = .deadLetter) →
          (getScanStatus db q).status = .failed) ∧
        (getScanStatus db q).progress = j.progress) ∧
      (q = none → getScanStatus db q = ⟨db, 0, none⟩)) ∧
    ((getScanStatus db q).wroteBack =
      if (getScanStatus db q).status ≠ db then some (getScanStatus db q).status
      else none) ∧
    ((getScanStatus db q).status ≠ db →
      (getScanStatus db q).status = .running ∨
        (getScanStatus db q).status = .completed ∨
        (getScanStatus db q).status = .failed) := by
  refine ⟨?_, ?_, ?_, ?_⟩
  · rintro (rfl | rfl) <;> simp [getScanStatus]
  · rintro (rfl | rfl) <;>
      exact ⟨fun j hq => by
        subst hq
        refine ⟨?_, ?_, ?_, ?_⟩
        · rintro (hs | hs | hs) <;> simp [getScanStatus, hs]
        · intro hs
          rcases hr : j.resultSuccess with _ | b
          · simp [getScanStatus, hs, hr]
          · cases b <;> simp [getScanStatus, hs, hr]
        · rintro (hs | hs) <;> simp [getScanStatus, hs]
        · rcases hs : j.jstate <;>
            rcases hr : j.resultSuccess with _ | b <;>
            simp [getScanStatus, hs, hr],
        fun hq => by subst hq; simp [getScanStatus]⟩
  · rcases db <;> rcases q with _ | j
    · simp [getScanStatus]
    · rcases hs : j.jstate <;> rcases hr : j.resultSuccess with _ | b <;>
        simp [getScanStatus, hs, hr]
    · simp [getScanStatus]
    · rcases hs : j.jstate <;> rcases hr : j.resultSuccess with _ | b <;>
        simp [getScanStatus, hs, hr]
    · simp [getScanStatus]
    · simp [getScanStatus]
    · simp [getScanStatus]
    · simp [getScanStatus]
  · intro hne
    rcases q with _ | ⟨js, rs, p⟩
    · rcases db <;> simp [getScanStatus] at hne ⊢
    · rcases db <;> rcases js <;> rcases rs with _ | b <;> (try cases b) <;>
        simp [getScanStatus] at hne ⊢

/-- C4 witness: the amended overlay applied at concrete inputs — a
pending scan with a waiting job maps to `running`, and a completed scan
with no job keeps `completed` with progress 100. -/
theorem c4_status_overlay_witness :
    (getScanStatus .pending (some ⟨.waiting, none, 37⟩)).status = .running ∧
    getScanStatus .completed none = ⟨.completed, 100, none⟩ :=
  ⟨(((c4_status_overlay .pending (some ⟨.waiting, none, 37⟩)).2.1 (Or.inl rfl)).1
      ⟨.waiting, none, 37⟩ rfl).1 (Or.inl rfl),
    (c4_status_overlay .completed none).1 (Or.inl rfl)⟩

/-- C10: `calculateLibraryRisk` is `0` on an empty vulnerability list
for every confidence and exploit flag; `calculateGlobalRisk` is `0` on
an empty risk list regardless of the critical-findings count (so the
`+10` per critical finding contributes only when a library risk is
present); and on the non-short-circuited path with a successfully
fetched page containing no external scripts, `minimalAnalyzeAndPersist`
persists a global risk score of `0`. -/
theorem c10_zero_risk_for_empty :
    (∀ (c : ℚ) (e : Bool), calculateLibraryRisk [] c e = 0) ∧
    (∀ cf : ℕ, calculateGlobalRisk [] cf = 0) ∧
    (∀ cf cf' : ℕ, calculateGlobalRisk [] cf = calculateGlobalRisk [] cf') ∧
    (∀ (db : MinDbState) (scan : MinScan) (page : FetchedPage)
        (vulnFeed : String → Option String → List (Option ℚ)),
      ¬ ((0 < db.libraries.length ∨ 0 < db.findings.length) ∧ scan.status = .completed) →
      page.scripts = [] →
      (minimalAnalyzeAndPersist db scan (some page) vulnFeed).1.globalRiskScore = 0) := by
  refine ⟨?_, ?_, ?_, ?_⟩
  · intro c e; simp [calculateLibraryRisk]
  · intro cf; simp [calculateGlobalRisk]
  · intro cf cf'; simp [calculateGlobalRisk]
  · intro db scan page vulnFeed hno hscripts
    simp [minimalAnalyzeAndPersist, hno, hscripts]

/-- C7: when a scan-creation request for a URL arrives while the most
recent scan for the same URL has `createdAt` within the cooldown window
(`0 ≤ now − createdAt` and `(now − createdAt)/1000 < cooldown`), the
request answers 429 with `retryAfterSeconds =
Math.ceil(cooldown − diffSeconds) ∈ (0, cooldown]`, and neither a scan
row nor a queue job is created. -/
theorem c7_cooldown (cd createdAt now : ℤ) (hcd : 0 < cd)
    (h0 : 0 ≤ now - createdAt)
    (hlt : ((now - createdAt : ℤ) : ℚ) / 1000 < (cd : ℚ)) :
    ∃ retry : ℤ,
      createScan (.ok ()) cd (some createdAt) now = ⟨429, some retry, false, false⟩ ∧
      0 < retry ∧ retry ≤ cd := by
  have hlt' : ((now : ℚ) - (createdAt : ℚ)) / 1000 < (cd : ℚ) := by
    push_cast at hlt
    exact hlt
  have hdiff : (0 : ℚ) ≤ ((now : ℚ) - (createdAt : ℚ)) / 1000 := by
    have h0' : (0 : ℚ) ≤ (now : ℚ) - (createdAt : ℚ) := by exact_mod_cast h0
    linarith
  refine ⟨⌈(cd : ℚ) - ((now : ℚ) - (createdAt : ℚ)) / 1000⌉, ?_, ?_, ?_⟩
  · simp [createScan, hcd, hlt']
  · rw [Int.ceil_pos]
    linarith
  · rw [Int.ceil_le]
    linarith

/-- C7 witness: the S6 scenario — a second scan of the same URL 5 s
after the first, with the default cooldown of 30 s. -/
theorem c7_cooldown_witness :
    ∃ retry : ℤ,
      createScan (.ok ()) 30 (some 0) 5000 = ⟨429, some retry, false, false⟩ ∧
      0 < retry ∧ retry ≤ 30 :=
  c7_cooldown 30 0 5000 (by norm_num) (by norm_num) (by norm_num)

theorem cacheLookup_map_update (k : CacheKey) (e' : CacheEntry) :
    ∀ cache : VulnCache,
    cacheLookup (cache.map (fun kv => if kv.1 = k then (kv.1, e') else kv)) k
      = if cache.any (fun kv => kv.1 = k) then some e' else none := by
  intro cache
  induction cache with
  | nil => simp [cacheLookup]
  | cons head rest ih =>
    obtain ⟨k', e⟩ := head
    by_cases hk : k' = k
    · subst hk
      simp only [List.map_cons, List.any_cons, if_pos rfl, if_true]
      simp [cacheLookup]
    · simp only [List.map_cons, List.any_cons]
      rw [if_neg hk]
      rw [show cacheLookup ((k', e) ::
          rest.map (fun kv => if kv.1 = k then (kv.1, e') else kv)) k
        = cacheLookup (rest.map (fun kv => if kv.1 = k then (kv.1, e') else kv)) k by
          simp only [cacheLookup]
          rw [if_neg (by simpa using hk)]]
      rw [ih]
      simp only [decide_eq_false hk, Bool.false_or]

theorem cacheLookup_append_of_not_mem (k : CacheKey) (e' : CacheEntry) :
    ∀ cache : VulnCache, cache.any (fun kv => kv.1 = k) = false →
    cacheLookup (cache ++ [(k, e')]) k = some e' := by
  intro cache
  induction cache with
  | nil =>
    intro _
    simp [cacheLookup]
  | cons head rest ih =>
    intro hany
    obtain ⟨k', e⟩ := head
    simp only [List.any_cons, Bool.or_eq_false_iff] at hany
    rw [List.cons_append,
      show cacheLookup ((k', e) :: (rest ++ [(k, e')])) k
        = cacheLookup (rest ++ [(k, e')]) k by
          simp only [cacheLookup]
          rw [if_neg (by simpa using hany.1)]]
    exact ih hany.2

/-- C8 (code-bug evaluation): for non-null versions the
`UNIQUE(package_name, version)` index makes the statement a true
upsert, and a read after it returns the stored vulnerability list
exactly when `now ≤ lastUpdated + ttl` — as does the claim's ttl = 1 s
hit-at-1 s / miss-at-2 s scenario when the key has no pre-existing row.
But for the claim's version-null keys the `ON CONFLICT` clause is dead
(Postgres unique indexes treat NULLs as distinct), the upsert inserts a
duplicate row, and the un-ordered SELECT's `rows[0]` can be the stale
row: with an expired `(lodash, null)` row already in the table, a read
500 ms after a fresh upsert with ttl = 86400 s misses, refuting the
claim's read-after-upsert equivalence. -/
theorem c8_cache_null_version_gap :
    (∀ (cache : VulnCache) (pk v : String)
        (vulns : List (Option ℚ)) (t0 ttl now : ℤ),
      getVulnerabilityCacheEntry
          (upsertVulnerabilityCacheEntry cache pk (some v) vulns t0 ttl) pk (some v) now
        = some ⟨vulns, t0, ttl⟩ ↔ now ≤ t0 + ttl * 1000) ∧
    getVulnerabilityCacheEntry
        (upsertVulnerabilityCacheEntry [] "lodash" none [some 7] 0 1) "lodash" none 1000
      = some ⟨[some 7], 0, 1⟩ ∧
    getVulnerabilityCacheEntry
        (upsertVulnerabilityCacheEntry [] "lodash" none [some 7] 0 1) "lodash" none 2000
      = none ∧
    getVulnerabilityCacheEntry
        (upsertVulnerabilityCacheEntry [(("lodash", none), ⟨[some 5], 0, 1⟩)]
          "lodash" none [some 7] 10000 86400) "lodash" none 10500
      = none ∧
    ((10500 : ℤ) ≤ 10000 + 86400 * 1000) := by
  refine ⟨?_, by decide, by decide, by decide, by decide⟩
  intro cache pk v vulns t0 ttl now
  have hl : cacheLookup (upsertVulnerabilityCacheEntry cache pk (some v) vulns t0 ttl)
      (pk, some v) = some ⟨vulns, t0, ttl⟩ := by
    rw [upsertVulnerabilityCacheEntry]
    by_cases hany : cache.any (fun kv => kv.1 = (pk, some v)) = true
    · rw [if_pos hany, cacheLookup_map_update, if_pos hany]
    · rw [if_neg hany, cacheLookup_append_of_not_mem _ _ _ (by
        rcases h : cache.any (fun kv => kv.1 = (pk, some v))
        · rfl
        · exact absurd h hany)]
  simp only [getVulnerabilityCacheEntry, hl]
  split_ifs with h
  · constructor
    · intro hEq
      simp at hEq
    · intro hle
      exact absurd hle (by omega)
  · constructor
    · intro _
      omega
    · intro _
      rfl

/-- C10 witness: the analyzer conjunct applied at a concrete empty DB
slice, a pending scan, and a page with no scripts. -/
theorem c10_zero_risk_for_empty_witness :
    (minimalAnalyzeAndPersist ⟨[], [], 0, 0⟩ ⟨.pending, true⟩
        (some ⟨⟨0, 0, false, false, 0, 0, 0, 0, 0, 0, 0⟩,
          ⟨true, false, true, true, true, true, none, true, false, true,
            true, true, true, none, false⟩, [], []⟩)
        (fun _ _ => [])).1.globalRiskScore = 0 :=
  c10_zero_risk_for_empty.2.2.2 ⟨[], [], 0, 0⟩ ⟨.pending, true⟩
    ⟨⟨0, 0, false, false, 0, 0, 0, 0, 0, 0, 0⟩,
      ⟨true, false, true, true, true, true, none, true, false, true,
        true, true, true, none, false⟩, [], []⟩
    (fun _ _ => []) (by simp) rfl

/-! Lemmas about the Set-Cookie loop. -/

theorem analyzeSetCookieLoop_true_true (l : List CookieFlags) :
    analyzeSetCookieLoop l true true = [] := by
  cases l with
  | nil => rfl
  | cons c rest => simp [analyzeSetCookieLoop]

theorem analyzeSetCookieLoop_high_count (l : List CookieFlags) : ∀ repS repG : Bool,
    (analyzeSetCookieLoop l repS repG).countP
        (fun f => f.ftype = .SECURITY_COOKIE ∧ f.severity = .high)
      ≤ if repS then 0 else 1 := by
  induction l with
  | nil => intro repS repG; simp [analyzeSetCookieLoop]
  | cons c rest ih =>
    intro repS repG
    rw [analyzeSetCookieLoop]
    by_cases hA : (c.isSensitive && (!c.hasSecure || !c.hasHttpOnly || !c.hasSameSite)
        && !repS) = true
    · rw [if_pos hA]
      have hS : repS = false := by
        cases repS
        · rfl
        · simp at hA
      subst hS
      cases repG
      · have h5 := ih true false
        simp only [Bool.false_eq_true, if_false, List.countP_cons]
        revert h5
        generalize List.countP
            (fun f => decide (f.ftype = FType.SECURITY_COOKIE ∧ f.severity = Severity.high))
            (analyzeSetCookieLoop rest true false) = n
        intro h5
        simp at h5 ⊢
        omega
      · simp
    · rw [if_neg hA]
      by_cases hB : (!c.isSensitive && (!c.hasSecure || !c.hasHttpOnly) && !repG) = true
      · rw [if_pos hB]
        cases repS
        · have h5 := ih false true
          simp only [Bool.false_eq_true, if_false, List.countP_cons]
          revert h5
          generalize List.countP
              (fun f => decide (f.ftype = FType.SECURITY_COOKIE ∧ f.severity = Severity.high))
              (analyzeSetCookieLoop rest false true) = n
          intro h5
          simp at h5 ⊢
          omega
        · simp
      · rw [if_neg hB]
        by_cases hSG : (repS && repG) = true
        · rw [if_pos hSG]
          simp
        · rw [if_neg hSG]
          exact ih repS repG

theorem analyzeSetCookieLoop_moderate_count (l : List CookieFlags) : ∀ repS repG : Bool,
    (analyzeSetCookieLoop l repS repG).countP
        (fun f => f.ftype = .SECURITY_COOKIE ∧ f.severity = .moderate)
      ≤ if repG then 0 else 1 := by
  induction l with
  | nil => intro repS repG; simp [analyzeSetCookieLoop]
  | cons c rest ih =>
    intro repS repG
    rw [analyzeSetCookieLoop]
    by_cases hA : (c.isSensitive && (!c.hasSecure || !c.hasHttpOnly || !c.hasSameSite)
        && !repS) = true
    · rw [if_pos hA]
      cases repG
      · have h5 := ih true false
        simp only [Bool.false_eq_true, if_false, List.countP_cons]
        revert h5
        generalize List.countP
            (fun f => decide (f.ftype = FType.SECURITY_COOKIE ∧ f.severity = Severity.moderate))
            (analyzeSetCookieLoop rest true false) = n
        intro h5
        simp at h5 ⊢
        omega
      · simp
    · rw [if_neg hA]
      by_cases hB : (!c.isSensitive && (!c.hasSecure || !c.hasHttpOnly) && !repG) = true
      · rw [if_pos hB]
        have hG : repG = false := by
          cases repG
          · rfl
          · simp at hB
        subst hG
        cases repS
        · have h5 := ih false true
          simp only [Bool.false_eq_true, if_false, List.countP_cons]
          revert h5
          generalize List.countP
              (fun f => decide (f.ftype = FType.SECURITY_COOKIE ∧ f.severity = Severity.moderate))
              (analyzeSetCookieLoop rest false true) = n
          intro h5
          simp at h5 ⊢
          omega
        · simp
      · rw [if_neg hB]
        by_cases hSG : (repS && repG) = true
        · rw [if_pos hSG]
          simp
        · rw [if_neg hSG]
          exact ih repS repG

theorem analyzeSetCookieLoop_stop (l1 : List CookieFlags) :
    ∀ (repS repG : Bool) (l2 : List CookieFlags),
    (repS = true ∨
      (analyzeSetCookieLoop l1 repS repG).any (fun f => f.severity = .high) = true) →
    (repG = true ∨
      (analyzeSetCookieLoop l1 repS repG).any (fun f => f.severity = .moderate) = true) →
    analyzeSetCookieLoop (l1 ++ l2) repS repG = analyzeSetCookieLoop l1 repS repG := by
  induction l1 with
  | nil =>
    intro repS repG l2 h1 h2
    rcases h1 with h1 | h1
    · rcases h2 with h2 | h2
      · subst h1
        subst h2
        simp [analyzeSetCookieLoop, analyzeSetCookieLoop_true_true]
      · simp [analyzeSetCookieLoop] at h2
    · simp [analyzeSetCookieLoop] at h1
  | cons c rest ih =>
    intro repS repG l2 h1 h2
    rw [List.cons_append]
    by_cases hA : (c.isSensitive && (!c.hasSecure || !c.hasHttpOnly || !c.hasSameSite)
        && !repS) = true
    · have hS : repS = false := by
        cases repS
        · rfl
        · simp at hA
      subst hS
      cases repG
      · rw [analyzeSetCookieLoop, if_pos hA] at h2 ⊢
        rw [analyzeSetCookieLoop, if_pos hA]
        simp only [Bool.false_eq_true, if_false]
        rcases h2 with h2 | h2
        · simp at h2
        · simp at h2
          rw [ih true false l2 (Or.inl rfl) (Or.inr (by simpa using h2))]
      · rw [analyzeSetCookieLoop, if_pos hA, analyzeSetCookieLoop, if_pos hA]
        simp
    · by_cases hB : (!c.isSensitive && (!c.hasSecure || !c.hasHttpOnly) && !repG) = true
      · have hG : repG = false := by
          cases repG
          · rfl
          · simp at hB
        subst hG
        cases repS
        · rw [analyzeSetCookieLoop, if_neg hA, if_pos hB] at h1 ⊢
          rw [analyzeSetCookieLoop, if_neg hA, if_pos hB]
          simp only [Bool.false_eq_true, if_false]
          rcases h1 with h1 | h1
          · simp at h1
          · simp at h1
            rw [ih false true l2 (Or.inr (by simpa using h1)) (Or.inl rfl)]
        · rw [analyzeSetCookieLoop, if_neg hA, if_pos hB,
            analyzeSetCookieLoop, if_neg hA, if_pos hB]
          simp
      · by_cases hSG : (repS && repG) = true
        · rw [analyzeSetCookieLoop, if_neg hA, if_neg hB, if_pos hSG,
            analyzeSetCookieLoop, if_neg hA, if_neg hB, if_pos hSG]
        · rw [analyzeSetCookieLoop, if_neg hA, if_neg hB, if_neg hSG] at h1 h2 ⊢
          rw [analyzeSetCookieLoop, if_neg hA, if_neg hB, if_neg hSG]
          exact ih repS repG l2 h1 h2

/-! Non-cookie finding chunks contribute no SECURITY_COOKIE findings. -/

theorem countP_ite_singleton {p : MFinding → Bool} (c : Prop) [Decidable c]
    (x : MFinding) (hx : p x = false) :
    List.countP p (if c then [x] else []) = 0 := by
  split
  · simp [List.countP_cons, hx]
  · simp

theorem countP_ite_pair {p : MFinding → Bool} (c1 c2 : Prop) [Decidable c1] [Decidable c2]
    (x y : MFinding) (hx : p x = false) (hy : p y = false) :
    List.countP p (if c1 then [x] else if c2 then [y] else []) = 0 := by
  split
  · simp [List.countP_cons, hx]
  · exact countP_ite_singleton c2 y hy

theorem countP_cookie_pattern (sev : Severity) (ts : List PatternType) :
    List.countP (fun f : MFinding => f.ftype = .SECURITY_COOKIE ∧ f.severity = sev)
      (ts.map (fun t => ⟨patternFType t, mapFindingTypeToSeverity (patternFType t)⟩))
      = 0 := by
  rw [List.countP_eq_zero]
  intro a ha
  simp only [List.mem_map] at ha
  obtain ⟨t, _, rfl⟩ := ha
  cases t <;> simp [patternFType]

theorem countP_cookie_surface (sev : Severity) (s : SurfaceView) (isHttps : Bool) :
    List.countP (fun f : MFinding => f.ftype = .SECURITY_COOKIE ∧ f.severity = sev)
      (analyzeHtmlSurface s isHttps) = 0 := by
  unfold analyzeHtmlSurface
  simp only [List.countP_append]
  rw [countP_ite_singleton _ _ (by simp), countP_ite_singleton _ _ (by simp),
    countP_ite_singleton _ _ (by simp), countP_ite_singleton _ _ (by simp),
    countP_ite_singleton _ _ (by simp), countP_ite_singleton _ _ (by simp),
    countP_ite_singleton _ _ (by simp), countP_ite_singleton _ _ (by simp)]

theorem countP_cookie_sri (sev : Severity) (scripts : List ScriptInfo) :
    List.countP (fun f : MFinding => f.ftype = .SECURITY_COOKIE ∧ f.severity = sev)
      (scripts.filterMap (fun s =>
        if s.isThirdParty && !s.isInsecure && !s.hasIntegrity then
          some ⟨.SCRIPT_INTEGRITY, .moderate⟩
        else none)) = 0 := by
  rw [List.countP_eq_zero]
  intro a ha
  simp only [List.mem_filterMap] at ha
  obtain ⟨s, _, heq⟩ := ha
  by_cases hc : (s.isThirdParty && !s.isInsecure && !s.hasIntegrity) = true
  · rw [if_pos hc] at heq
    cases heq
    simp
  · rw [if_neg hc] at heq
    cases heq

theorem countP_cookie_headers (sev : Severity) (h : HeaderView) (isHttps : Bool) :
    List.countP (fun f : MFinding => f.ftype = .SECURITY_COOKIE ∧ f.severity = sev)
      (analyzeHeaders h isHttps)
      = List.countP (fun f : MFinding => f.ftype = .SECURITY_COOKIE ∧ f.severity = sev)
          (match h.setCookie with
           | some cookies => analyzeSetCookie cookies
           | none => []) := by
  unfold analyzeHeaders
  simp only [List.countP_append]
  rw [countP_ite_pair _ _ _ _ (by simp) (by simp),
    countP_ite_singleton _ _ (by simp),
    countP_ite_pair _ _ _ _ (by simp) (by simp),
    countP_ite_singleton _ _ (by simp),
    countP_ite_pair _ _ _ _ (by simp) (by simp),
    countP_ite_singleton _ _ (by simp),
    countP_ite_singleton _ _ (by simp),
    countP_ite_singleton _ _ (by simp),
    countP_ite_singleton _ _ (by simp)]
  have hcors : List.countP (fun f : MFinding => f.ftype = .SECURITY_COOKIE ∧ f.severity = sev)
      (match h.acao with
       | none => []
       | some a =>
         if (a.trim = "*" ∨ a.trim = "*,*") ∧ h.acacTrue then
           [⟨.SECURITY_HEADER, .high⟩]
         else if a.trim = "*" then [⟨.SECURITY_HEADER, .moderate⟩]
         else []) = 0 := by
    cases h.acao with
    | none => rfl
    | some a => exact countP_ite_pair _ _ _ _ (by simp) (by simp)
  rw [hcors]
  omega

/-- C9: on any analysis run (any fetched page, any `Set-Cookie` header,
possibly multi-line), the minimal analyzer emits at most one
high-severity `SECURITY_COOKIE` finding (sensitive cookie missing
flags) and at most one moderate `SECURITY_COOKIE` finding (generic
cookie missing flags); and the cookie loop stops once both have been
emitted: whatever cookies follow, the output is that of the prefix that
produced both findings. -/
theorem c9_cookie_findings :
    (∀ (db : MinDbState) (scan : MinScan) (page : FetchedPage)
        (vulnFeed : String → Option String → List (Option ℚ)),
      ¬ ((0 < db.libraries.length ∨ 0 < db.findings.length) ∧
          scan.status = .completed) →
      (minimalAnalyzeAndPersist db scan (some page) vulnFeed).2.2.countP
          (fun f => f.ftype = .SECURITY_COOKIE ∧ f.severity = .high) ≤ 1 ∧
      (minimalAnalyzeAndPersist db scan (some page) vulnFeed).2.2.countP
          (fun f => f.ftype = .SECURITY_COOKIE ∧ f.severity = .moderate) ≤ 1) ∧
    (∀ l1 l2 : List CookieFlags,
      (analyzeSetCookie l1).any (fun f => f.severity = .high) = true →
      (analyzeSetCookie l1).any (fun f => f.severity = .moderate) = true →
      analyzeSetCookie (l1 ++ l2) = analyzeSetCookie l1) := by
  constructor
  · intro db scan page vulnFeed hno
    have key : ∀ sev : Severity,
        (minimalAnalyzeAndPersist db scan (some page) vulnFeed).2.2.countP
            (fun f => f.ftype = .SECURITY_COOKIE ∧ f.severity = sev)
          = List.countP (fun f : MFinding => f.ftype = .SECURITY_COOKIE ∧ f.severity = sev)
              (match page.headers.setCookie with
               | some cookies => analyzeSetCookie cookies
               | none => []) := by
      intro sev
      rw [minimalAnalyzeAndPersist, if_neg hno]
      simp only [List.countP_append]
      rw [countP_cookie_pattern, countP_cookie_surface, countP_cookie_sri,
        countP_cookie_headers]
      rw [countP_ite_singleton _ _ (by simp), countP_ite_singleton _ _ (by simp)]
      simp [List.countP_cons]
    constructor
    · rw [key .high]
      cases hsc : page.headers.setCookie with
      | none => simp
      | some cookies =>
        have := analyzeSetCookieLoop_high_count cookies false false
        simpa [analyzeSetCookie] using this
    · rw [key .moderate]
      cases hsc : page.headers.setCookie with
      | none => simp
      | some cookies =>
        have := analyzeSetCookieLoop_moderate_count cookies false false
        simpa [analyzeSetCookie] using this
  · intro l1 l2 hh hm
    exact analyzeSetCookieLoop_stop l1 false false l2 (Or.inr hh) (Or.inr hm)

/-- C9 witness: a concrete run — a page whose `Set-Cookie` header
carries two offending sensitive cookies and two offending generic
cookies yields exactly one high and one moderate cookie finding, and
appending further cookies after both were emitted leaves the output
unchanged. -/
theorem c9_cookie_findings_witness :
    (minimalAnalyzeAndPersist ⟨[], [], 0, 0⟩ ⟨.pending, true⟩
        (some ⟨⟨0, 0, false, false, 0, 0, 0, 0, 0, 0, 0⟩,
          ⟨true, false, true, true, true, true,
            some [⟨true, false, false, false⟩, ⟨false, false, false, false⟩],
            true, false, true, true, true, true, none, false⟩, [], []⟩)
        (fun _ _ => [])).2.2.countP
      (fun f => f.ftype = .SECURITY_COOKIE ∧ f.severity = .high) ≤ 1 ∧
    analyzeSetCookie
        ([⟨true, false, false, false⟩, ⟨false, false, false, false⟩] ++
          [⟨true, false, false, false⟩])
      = analyzeSetCookie [⟨true, false, false, false⟩, ⟨false, false, false, false⟩] :=
  ⟨(c9_cookie_findings.1 ⟨[], [], 0, 0⟩ ⟨.pending, true⟩
      ⟨⟨0, 0, false, false, 0, 0, 0, 0, 0, 0, 0⟩,
        ⟨true, false, true, true, true, true,
          some [⟨true, false, false, false⟩, ⟨false, false, false, false⟩],
          true, false, true, true, true, true, none, false⟩, [], []⟩
      (fun _ _ => []) (by simp)).1,
    c9_cookie_findings.2 [⟨true, false, false, false⟩, ⟨false, false, false, false⟩]
      [⟨true, false, false, false⟩] (by decide) (by decide)⟩

/-- C2 (amended): the minimal analyzer short-circuits — for a scan
whose status is `completed` and that already has rows in both
`libraries` and `findings`, `minimalAnalyzeAndPersist` returns the
existing rows and leaves the DB slice untouched (no script, library or
finding row is inserted, and the risk score is not rewritten).  The
full analysis worker has no such guard (see `c2_counterexample`). -/
theorem c2_minimal_idempotent (db : MinDbState) (scan : MinScan)
    (fetched : Option FetchedPage)
    (vulnFeed : String → Option String → List (Option ℚ))
    (h1 : scan.status = .completed) (h2 : db.libraries ≠ []) (h3 : db.findings ≠ []) :
    minimalAnalyzeAndPersist db scan fetched vulnFeed = (db, (db.libraries, db.findings)) := by
  have hguard : (0 < db.libraries.length ∨ 0 < db.findings.length) ∧
      scan.status = .completed :=
    ⟨Or.inl (List.length_pos.mpr h2), h1⟩
  rw [minimalAnalyzeAndPersist.eq_def, if_pos hguard]

/-- C2 witness: the short-circuit applied to a concrete completed scan
with one library row and one finding row. -/
theorem c2_minimal_idempotent_witness :
    minimalAnalyzeAndPersist ⟨[⟨"jquery", 40, 70⟩], [⟨.INFO, .low⟩], 1, 40⟩
        ⟨.completed, true⟩ none (fun _ _ => [])
      = (⟨[⟨"jquery", 40, 70⟩], [⟨.INFO, .low⟩], 1, 40⟩,
          ([⟨"jquery", 40, 70⟩], [⟨.INFO, .low⟩])) :=
  c2_minimal_idempotent ⟨[⟨"jquery", 40, 70⟩], [⟨.INFO, .low⟩], 1, 40⟩
    ⟨.completed, true⟩ none (fun _ _ => []) rfl (by simp) (by simp)

/-- C2 counterexample: the full analysis worker's `processAnalysisTask`
re-processes a task for a scan that is already `completed` with
existing rows (the queue re-delivers after a stall or retry) and
inserts fresh script, library and finding rows — it never reads the
existing rows or the status before writing. -/
theorem c2_counterexample :
    processAnalysisTask ⟨.completed, 2, 1, 3⟩ ⟨1, 0, 1, 1⟩ true = ⟨.completed, 3, 2, 4⟩ ∧
    (processAnalysisTask ⟨.completed, 2, 1, 3⟩ ⟨1, 0, 1, 1⟩ true).scriptRows ≠ 2 := by
  decide

/-! Lifecycle lemmas for the C3 transition model. -/

theorem writes_glue {w tail : List ScanSt} {r r' : ℕ}
    (hw : w.Pairwise (fun a b => statusRank a ≤ statusRank b))
    (hwlo : ∀ x ∈ w, r ≤ statusRank x)
    (hwhi : ∀ x ∈ w, statusRank x ≤ r')
    (hrr : r ≤ r')
    (htlo : ∀ x ∈ tail, r' ≤ statusRank x)
    (ht : tail.Pairwise (fun a b => statusRank a ≤ statusRank b)) :
    (∀ x ∈ w ++ tail, r ≤ statusRank x) ∧
    (w ++ tail).Pairwise (fun a b => statusRank a ≤ statusRank b) := by
  constructor
  · intro x hx
    rcases List.mem_append.mp hx with h | h
    · exact hwlo x h
    · exact le_trans hrr (htlo x h)
  · rw [List.pairwise_append]
    exact ⟨hw, ht, fun a ha b hb => le_trans (hwhi a ha) (htlo b hb)⟩

theorem countDeliver_cons_create (es : List C3Ev) :
    countDeliver (C3Ev.create :: es) = countDeliver es := by
  simp [countDeliver, List.countP_cons]

theorem countDeliver_cons_reconcile (es : List C3Ev) :
    countDeliver (C3Ev.reconcile :: es) = countDeliver es := by
  simp [countDeliver, List.countP_cons]

theorem countDeliver_cons_deliver (es : List C3Ev) (ok dbOk : Bool) :
    countDeliver (C3Ev.deliver ok dbOk :: es) = countDeliver es + 1 := by
  simp [countDeliver, List.countP_cons]

theorem c3_run_writes_sorted (evs : List C3Ev) : ∀ s : C3State,
    ((preDeliverInv s ∧ countDeliver evs ≤ 1) ∨
      (postDeliverInv s ∧ countDeliver evs = 0)) →
    (∀ w ∈ c3Run s evs, stateRank s ≤ statusRank w) ∧
    (c3Run s evs).Pairwise (fun a b => statusRank a ≤ statusRank b) := by
  induction evs with
  | nil =>
    intro s _
    simp [c3Run]
  | cons e es ih =>
    intro s hinv
    rw [c3Run]
    cases e with
    | create =>
      rw [countDeliver_cons_create] at hinv
      rcases hdb : s.db with _ | st
      · -- no row yet: insert pending, enqueue
        have hstep : c3Step s .create = (⟨some .pending, some .queued⟩, [.pending]) := by
          simp [c3Step, hdb]
        rw [hstep]
        have hinv' : (preDeliverInv ⟨some .pending, some .queued⟩ ∧ countDeliver es ≤ 1) ∨
            (postDeliverInv ⟨some .pending, some .queued⟩ ∧ countDeliver es = 0) := by
          rcases hinv with ⟨_, hc⟩ | ⟨hpost, hc⟩
          · exact Or.inl ⟨Or.inr ⟨Or.inl rfl, rfl⟩, hc⟩
          · obtain ⟨_, st, hst⟩ := hpost
            rw [hdb] at hst
            cases hst
        have htail := ih _ hinv'
        refine (writes_glue ?_ ?_ ?_ ?_ htail.1 htail.2)
        · simp
        · intro x hx
          simp only [List.mem_singleton] at hx
          subst hx
          simp [stateRank, hdb, statusRank]
        · intro x hx
          simp only [List.mem_singleton] at hx
          subst hx
          simp [stateRank, statusRank]
        · simp [stateRank, hdb, statusRank]
      · -- row already exists: no-op
        have hstep : c3Step s .create = (s, []) := by
          simp [c3Step, hdb]
        rw [hstep]
        simpa using ih _ hinv
    | deliver ok dbOk =>
      rw [countDeliver_cons_deliver] at hinv
      have hpre : preDeliverInv s ∧ countDeliver es = 0 := by
        rcases hinv with ⟨hp, hc⟩ | ⟨_, hc⟩
        · exact ⟨hp, by omega⟩
        · omega
      rcases hjob : s.job with _ | q
      · -- job never enqueued: no-op
        have hstep : c3Step s (.deliver ok dbOk) = (s, []) := by
          simp [c3Step, hjob]
        rw [hstep]
        simpa using ih _ (Or.inl ⟨hpre.1, by omega⟩)
      · -- the worker processes the job
        have hdbshape : s.db = some .pending ∨ s.db = some .running := by
          rcases hpre.1 with ⟨_, hj⟩ | ⟨hd, _⟩
          · rw [hjob] at hj
            cases hj
          · exact hd
        have hdbsome : ∃ st, s.db = some st := by
          rcases hdbshape with h | h
          · exact ⟨_, h⟩
          · exact ⟨_, h⟩
        have hranklo : stateRank s ≤ 1 := by
          rcases hdbshape with h | h <;> simp [stateRank, h, statusRank]
        cases dbOk with
        | true =>
          have hstep : c3Step s (.deliver ok true)
              = (⟨some (if ok then .completed else .failed), some (.done ok)⟩,
                  [.running, if ok then .completed else .failed]) := by
            simp [c3Step, hjob]
          rw [hstep]
          have hinv' : (preDeliverInv ⟨some (if ok then ScanSt.completed else .failed),
                some (.done ok)⟩ ∧ countDeliver es ≤ 1) ∨
              (postDeliverInv ⟨some (if ok then ScanSt.completed else .failed),
                some (.done ok)⟩ ∧ countDeliver es = 0) :=
            Or.inr ⟨⟨⟨ok, rfl⟩, ⟨_, rfl⟩⟩, hpre.2⟩
          have htail := ih _ hinv'
          refine (writes_glue ?_ ?_ ?_ ?_ htail.1 htail.2)
          · cases ok <;> simp [statusRank]
          · intro x hx
            simp only [List.mem_cons, List.mem_singleton, List.not_mem_nil, or_false] at hx
            rcases hx with rfl | rfl
            · simpa [statusRank] using hranklo
            · refine le_trans hranklo ?_
              cases ok <;> simp [statusRank]
          · intro x hx
            simp only [List.mem_cons, List.mem_singleton, List.not_mem_nil, or_false] at hx
            rcases hx with rfl | rfl <;> cases ok <;> simp [statusRank, stateRank]
          · refine le_trans hranklo ?_
            cases ok <;> simp [stateRank, statusRank]
        | false =>
          have hstep : c3Step s (.deliver ok false) = (⟨s.db, some (.done ok)⟩, []) := by
            simp [c3Step, hjob]
          rw [hstep]
          have hinv' : (preDeliverInv ⟨s.db, some (.done ok)⟩ ∧ countDeliver es ≤ 1) ∨
              (postDeliverInv ⟨s.db, some (.done ok)⟩ ∧ countDeliver es = 0) :=
            Or.inr ⟨⟨⟨ok, rfl⟩, hdbsome⟩, hpre.2⟩
          simpa [stateRank] using ih _ hinv'
    | reconcile =>
      rw [countDeliver_cons_reconcile] at hinv
      rcases hdb : s.db with _ | st
      · -- 404: no row
        have hstep : c3Step s .reconcile = (s, []) := by
          simp [c3Step, hdb]
        rw [hstep]
        simpa using ih _ hinv
      · cases st with
        | completed =>
          have hstep : c3Step s .reconcile = (s, []) := by
            simp [c3Step, hdb]
          rw [hstep]
          simpa using ih _ hinv
        | failed =>
          have hstep : c3Step s .reconcile = (s, []) := by
            simp [c3Step, hdb]
          rw [hstep]
          simpa using ih _ hinv
        | pending =>
          rcases hjob : s.job with _ | q
          · -- no job found: effective status equals the row, no write
            have hstep : c3Step s .reconcile = (s, []) := by
              simp [c3Step, hdb, hjob]
            rw [hstep]
            simpa using ih _ hinv
          · cases q with
            | queued =>
              -- waiting/delayed/active ⇒ running; differs from pending ⇒ write
              have hstep : c3Step s .reconcile = (⟨some .running, s.job⟩, [.running]) := by
                simp [c3Step, hdb, hjob]
              rw [hstep]
              have hinv' : (preDeliverInv ⟨some .running, s.job⟩ ∧ countDeliver es ≤ 1) ∨
                  (postDeliverInv ⟨some .running, s.job⟩ ∧ countDeliver es = 0) := by
                rcases hinv with ⟨_, hc⟩ | ⟨hpost, hc⟩
                · exact Or.inl ⟨Or.inr ⟨Or.inr rfl, hjob⟩, hc⟩
                · obtain ⟨⟨ok, hj⟩, _⟩ := hpost
                  rw [hjob] at hj
                  cases hj
              have htail := ih _ hinv'
              refine (writes_glue ?_ ?_ ?_ ?_ htail.1 htail.2)
              · simp
              · intro x hx
                simp only [List.mem_singleton] at hx
                subst hx
                simp [stateRank, hdb, statusRank]
              · intro x hx
                simp only [List.mem_singleton] at hx
                subst hx
                simp [stateRank, statusRank]
              · simp [stateRank, hdb, statusRank]
            | done ok =>
              -- queue finished ⇒ terminal status written back
              have hstep : c3Step s .reconcile
                  = (⟨some (if ok then .completed else .failed), s.job⟩,
                      [if ok then .completed else .failed]) := by
                cases ok <;> simp [c3Step, hdb, hjob]
              rw [hstep]
              have hc0 : countDeliver es = 0 := by
                rcases hinv with ⟨hp, _⟩ | ⟨_, hc⟩
                · rcases hp with ⟨_, hj⟩ | ⟨_, hj⟩ <;> rw [hjob] at hj <;> cases hj
                · exact hc
              have hinv' : (preDeliverInv ⟨some (if ok then ScanSt.completed else .failed),
                    s.job⟩ ∧ countDeliver es ≤ 1) ∨
                  (postDeliverInv ⟨some (if ok then ScanSt.completed else .failed),
                    s.job⟩ ∧ countDeliver es = 0) :=
                Or.inr ⟨⟨⟨ok, hjob⟩, ⟨_, rfl⟩⟩, hc0⟩
              have htail := ih _ hinv'
              refine (writes_glue ?_ ?_ ?_ ?_ htail.1 htail.2)
              · simp
              · intro x hx
                simp only [List.mem_singleton] at hx
                subst hx
                cases ok <;> simp [stateRank, hdb, statusRank]
              · intro x hx
                simp only [List.mem_singleton] at hx
                subst hx
                cases ok <;> simp [stateRank, statusRank]
              · cases ok <;> simp [stateRank, hdb, statusRank]
        | running =>
          rcases hjob : s.job with _ | q
          · have hstep : c3Step s .reconcile = (s, []) := by
              simp [c3Step, hdb, hjob]
            rw [hstep]
            simpa using ih _ hinv
          · cases q with
            | queued =>
              -- effective running equals the row: no write
              have hstep : c3Step s .reconcile = (s, []) := by
                simp [c3Step, hdb, hjob]
              rw [hstep]
              simpa using ih _ hinv
            | done ok =>
              have hstep : c3Step s .reconcile
                  = (⟨some (if ok then .completed else .failed), s.job⟩,
                      [if ok then .completed else .failed]) := by
                cases ok <;> simp [c3Step, hdb, hjob]
              rw [hstep]
              have hc0 : countDeliver es = 0 := by
                rcases hinv with ⟨hp, _⟩ | ⟨_, hc⟩
                · rcases hp with ⟨_, hj⟩ | ⟨_, hj⟩ <;> rw [hjob] at hj <;> cases hj
                · exact hc
              have hinv' : (preDeliverInv ⟨some (if ok then ScanSt.completed else .failed),
                    s.job⟩ ∧ countDeliver es ≤ 1) ∨
                  (postDeliverInv ⟨some (if ok then ScanSt.completed else .failed),
                    s.job⟩ ∧ countDeliver es = 0) :=
                Or.inr ⟨⟨⟨ok, hjob⟩, ⟨_, rfl⟩⟩, hc0⟩
              have htail := ih _ hinv'
              refine (writes_glue ?_ ?_ ?_ ?_ htail.1 htail.2)
              · simp
              · intro x hx
                simp only [List.mem_singleton] at hx
                subst hx
                cases ok <;> simp [stateRank, hdb, statusRank]
              · intro x hx
                simp only [List.mem_singleton] at hx
                subst hx
                cases ok <;> simp [stateRank, statusRank]
              · cases ok <;> simp [stateRank, hdb, statusRank]

/-- C3 counterexample: `updateScanStatus` is an unconditional UPDATE
and `processAnalysisTask` writes `running` without reading the current
status, so when the queue delivers the same analysis job a second time
(stall re-queue / retry — re-delivery the system explicitly admits),
the write sequence of the scan row is `pending, running, completed,
running, completed`: a `running` write lands after the scan was already
`completed`, moving the status backwards. -/
theorem c3_counterexample :
    c3Run c3Init [.create, .deliver true true, .deliver true true]
      = [.pending, .running, .completed, .running, .completed] ∧
    ¬ (c3Run c3Init [.create, .deliver true true, .deliver true true]).Pairwise
        (fun a b => statusRank a ≤ statusRank b) := by
  constructor
  · rfl
  · decide

/-- C3 (amended): in every trace in which the scan's job is delivered
to the worker at most once — i.e. absent queue re-delivery — the
sequence of status values written to the scan row is monotone in the
lifecycle order `pending → running → (completed|failed)`: no later
write has a smaller rank, so once a terminal status is written nothing
resets the row to `running` or `pending`. -/
theorem c3_status_monotone (evs : List C3Ev) (h : countDeliver evs ≤ 1) :
    (c3Run c3Init evs).Pairwise (fun a b => statusRank a ≤ statusRank b) :=
  (c3_run_writes_sorted evs c3Init (Or.inl ⟨Or.inl ⟨rfl, rfl⟩, h⟩)).2

/-- C3 witness: the amended theorem applied to the normal trace —
create, one successful delivery, then a status poll — whose writes are
`pending, running, completed`. -/
theorem c3_status_monotone_witness :
    (c3Run c3Init [.create, .deliver true true, .reconcile]).Pairwise
      (fun a b => statusRank a ≤ statusRank b) :=
  c3_status_monotone [.create, .deliver true true, .reconcile] (by decide)
